import Mathlib

/-!
Verification development for `analyze_temperatures.py`.

Temperatures are embedded as exact rationals (`ℚ`): the Python code does
exact-looking arithmetic on small data, and `statistics.stdev` computes the
sample variance in exact `Fraction` arithmetic before taking a single square
root, so rational variance followed by `Real.sqrt` mirrors the source.
Standard deviations therefore live in `ℝ`.

The filesystem is abstracted: a folder is `Option (List RawFile)` (`none`
models a non-existent folder), and a `RawFile` carries the file name, a
`readable` flag (`false` models the `except`-branch in `read_csv_files`,
i.e. a file whose open/parse raises), the header `fieldnames`, and the data
rows as functions from column name to the raw cell (`none` models a short
row, where `csv.DictReader` fills `None`).
-/

/-- `SEASONS` from the source: Australian seasons, insertion order
Summer, Autumn, Winter, Spring. -/
def SEASONS : List (String × List String) :=
  [("Summer", ["December", "January", "February"]),
   ("Autumn", ["March", "April", "May"]),
   ("Winter", ["June", "July", "August"]),
   ("Spring", ["September", "October", "November"])]

/-- `ALL_MONTHS = [month for months in SEASONS.values() for month in months]`. -/
def ALL_MONTHS : List String := SEASONS.flatMap Prod.snd

/-- A cleaned station record: the source keeps the whole CSV row `dict`, but
downstream code only ever reads `row['STATION_NAME']` and the 12 month keys,
so only those fields are modelled.  `STATION_NAME` is `Option String` because
a short row makes `csv.DictReader` fill the cell with `None`. -/
structure StationRecord where
  STATION_NAME : Option String
  month : String → Option ℚ

/-- Whitespace as stripped by Python `str.strip`. -/
def isSpaceChar (c : Char) : Bool :=
  c = ' ' ∨ c = '\t' ∨ c = '\n' ∨ c = '\r'

/-- Strip leading and trailing whitespace from a character list
(Python `str.strip`, kept on `List Char` so it computes by reduction). -/
def strTrimChars (cs : List Char) : List Char :=
  ((cs.dropWhile isSpaceChar).reverse.dropWhile isSpaceChar).reverse

/-- One digit of a decimal literal. -/
def digitVal (c : Char) : Option ℕ :=
  if c.isDigit then some (c.toNat - 48) else none

/-- Parse a nonempty all-digit string into a natural number. -/
def parseNatDigits (cs : List Char) : Option ℕ :=
  if cs = [] then none
  else cs.foldl (fun acc c =>
    match acc, digitVal c with
    | some a, some d => some (a * 10 + d)
    | _, _ => none) (some 0)

/-- Split a character list at every dot. -/
def splitDot : List Char → List (List Char)
  | [] => [[]]
  | c :: cs =>
    if c = '.' then [] :: splitDot cs
    else
      match splitDot cs with
      | [] => [[c]]
      | h :: t => (c :: h) :: t

/-- Model of Python `float(s)` on the strings that occur in temperature CSVs:
optional surrounding whitespace, optional sign, decimal digits with an
optional fractional part (`"1."` and `".5"` parse, `"."` does not).
Exponent notation and `inf`/`nan` are outside the model. -/
def parseFloat (s : String) : Option ℚ :=
  let t := strTrimChars s.toList
  let sgn : ℚ := if t.head? = some '-' then -1 else 1
  let body := if t.head? = some '-' ∨ t.head? = some '+' then t.tail else t
  match splitDot body with
  | [ip] => (parseNatDigits ip).map (fun n => sgn * n)
  | [ip, fp] =>
    if ip = [] ∧ fp = [] then none
    else
      match (if ip = [] then some 0 else parseNatDigits ip),
            (if fp = [] then some 0 else parseNatDigits fp) with
      | some i, some f => some (sgn * ((i : ℚ) + (f : ℚ) / (10 : ℚ) ^ fp.length))
      | _, _ => none
  | _ => none

/-- `row[month] = float(row[month]) if row[month].strip() else None`, with
`(ValueError, AttributeError)` caught and turned into `None`: a missing cell
(`None`, which would raise `AttributeError` on `.strip()`), a
blank/whitespace-only cell, or an unparsable cell all become `none`. -/
def cleanCell (c : Option String) : Option ℚ :=
  match c with
  | none => none
  | some s => if strTrimChars s.toList = [] then none else parseFloat s

/-- Required header columns: `['STATION_NAME'] + ALL_MONTHS`. -/
def requiredCols : List String := "STATION_NAME" :: ALL_MONTHS

/-- Cleaning one CSV row: the station name passes through, every month cell
goes through `cleanCell`.  Extra (non-month) columns are dropped from the
model because nothing downstream reads them. -/
def cleanRow (row : String → Option String) : StationRecord :=
  { STATION_NAME := row "STATION_NAME"
    month := fun m => if m ∈ ALL_MONTHS then cleanCell (row m) else none }

/-- Python `str.endswith`, kept on `List Char` so it computes by
reduction. -/
def strEndsWith (s t : String) : Bool :=
  s.toList.drop (s.toList.length - t.toList.length) = t.toList

/-- Abstract input file, see the module docstring. -/
structure RawFile where
  name : String
  readable : Bool
  fieldnames : List String
  rows : List (String → Option String)

/-- A file is accepted when it can be read and its header contains the
station-name column and all 12 month columns. -/
def acceptedFile (f : RawFile) : Prop :=
  f.readable = true ∧ ∀ c ∈ requiredCols, c ∈ f.fieldnames

instance (f : RawFile) : Decidable (acceptedFile f) := by
  unfold acceptedFile; infer_instance

/-- The rows an individual file contributes to `all_data`: every data row of
an accepted file, cleaned; nothing from a skipped file (missing columns, or
the `except`-branch for an unreadable file). -/
def processFile (f : RawFile) : List StationRecord :=
  if acceptedFile f then f.rows.map cleanRow else []

/-- The spec's Loader error taxonomy (the source raises
`FileNotFoundError` / `ValueError` with corresponding messages). -/
inductive LoadError
  | FolderNotFound
  | NoInputFiles
  | NoValidData
deriving DecidableEq

/-- `read_csv_files`: check the folder exists, filter to `.csv` files, fail
if none; accumulate the cleaned rows of every accepted file; fail if the
accumulated dataset is empty. -/
def read_csv_files (folder : Option (List RawFile)) :
    Except LoadError (List StationRecord) :=
  match folder with
  | none => Except.error LoadError.FolderNotFound
  | some files =>
    let csv_files := files.filter (fun f => strEndsWith f.name ".csv")
    if csv_files.isEmpty then Except.error LoadError.NoInputFiles
    else
      let all_data := csv_files.flatMap processFile
      if all_data.isEmpty then Except.error LoadError.NoValidData
      else Except.ok all_data

/-- `defaultdict(list)` with `.extend`: an insertion-ordered association
list; extending an existing key appends to its list in place, a new key is
appended at the end (the bare access `d[k]` creates the key even when the
extension is empty). -/
def dextend {κ α : Type} [DecidableEq κ]
    (d : List (κ × List α)) (k : κ) (v : List α) : List (κ × List α) :=
  if k ∈ d.map Prod.fst then
    d.map (fun p => if p.1 = k then (p.1, p.2 ++ v) else p)
  else d ++ [(k, v)]

/-- One row's pass of the season-grouping loop in
`calculate_seasonal_averages`. -/
def seasonStep (d : List (String × List ℚ)) (row : StationRecord) :
    List (String × List ℚ) :=
  SEASONS.foldl (fun d sp => dextend d sp.1 (sp.2.filterMap row.month)) d

/-- `season_data`: all present temperatures grouped by season, across all
records. -/
def season_data (data : List StationRecord) : List (String × List ℚ) :=
  data.foldl seasonStep []

/-- `season_averages`: `statistics.mean(temps) if temps else 0.0`. -/
def season_averages (data : List StationRecord) : List (String × ℚ) :=
  (season_data data).map
    (fun p => (p.1, if p.2 = [] then 0 else p.2.sum / (p.2.length : ℚ)))

/-- Python `max` over a nonempty collection with first element `x` and rest
`l`. -/
def lmax {α : Type} [LinearOrder α] (x : α) (l : List α) : α := l.foldl max x

/-- Python `min` over a nonempty collection with first element `x` and rest
`l`. -/
def lmin {α : Type} [LinearOrder α] (x : α) (l : List α) : α := l.foldl min x

/-- The per-station grouping pass shared verbatim by
`find_largest_temp_range` and `find_temperature_stability`: pooled
non-missing temperatures keyed by station name, accumulated across all
records. -/
def station_temps (data : List StationRecord) :
    List (Option String × List ℚ) :=
  data.foldl
    (fun d row => dextend d row.STATION_NAME (ALL_MONTHS.filterMap row.month))
    []

/-- The `range`/`max`/`min` record built per station. -/
structure RangeInfo where
  range : ℚ
  max : ℚ
  min : ℚ
deriving DecidableEq

/-- `station_ranges`: stations with an empty pooled list are skipped
(`if temps:`); for the others, range = max - min. -/
def station_ranges (data : List StationRecord) :
    List (Option String × RangeInfo) :=
  (station_temps data).filterMap (fun p =>
    match p.2 with
    | [] => none
    | t :: ts => some (p.1, ⟨lmax t ts - lmin t ts, lmax t ts, lmin t ts⟩))

/-- `max_range = max(info['range'] for info in station_ranges.values())`
(only ever applied to a nonempty list, as in the source). -/
def max_range : List (Option String × RangeInfo) → ℚ
  | [] => 0
  | p :: rest => lmax p.2.range (rest.map (fun q => q.2.range))

/-- `find_largest_temp_range`: `none` models the
`ValueError("No valid temperature data for range calculation.")` raise
(the spec's `NoStationData`); otherwise all stations within `0.0001` of the
maximal range. -/
def find_largest_temp_range (data : List StationRecord) :
    Option (List (Option String × RangeInfo)) :=
  match station_ranges data with
  | [] => none
  | p :: rest =>
    some ((p :: rest).filter
      (fun q => decide (|q.2.range - max_range (p :: rest)| < 1 / 10000)))

/-- Mean of a list of rationals, `statistics.mean`. -/
def lmean (xs : List ℚ) : ℚ := xs.sum / (xs.length : ℚ)

/-- The exact sample variance `statistics.stdev` computes internally
(n - 1 denominator, exact `Fraction` arithmetic). -/
def svariance (xs : List ℚ) : ℚ :=
  (xs.map (fun x => (x - lmean xs) ^ 2)).sum / ((xs.length : ℚ) - 1)

/-- `statistics.stdev`: square root of the exact sample variance. -/
noncomputable def stdev (xs : List ℚ) : ℝ := Real.sqrt (svariance xs)

/-- `station_stddevs`: sample stddev when a station has more than one pooled
value, else the literal `0.0` (the `else`-branch that also logs the
"insufficient data" warning). -/
noncomputable def station_stddevs (data : List StationRecord) :
    List (Option String × ℝ) :=
  (station_temps data).map
    (fun p => (p.1, if 1 < p.2.length then stdev p.2 else 0))

/-- The stations for which the source logs
`"Station ... has insufficient data."` (the `else`-branch above). -/
def insufficient_data_log (data : List StationRecord) : List (Option String) :=
  ((station_temps data).filter (fun p => decide (¬ 1 < p.2.length))).map Prod.fst

/-- `min(station_stddevs.values())` (only applied to a nonempty list). -/
noncomputable def min_stddev : List (Option String × ℝ) → ℝ
  | [] => 0
  | p :: rest => lmin p.2 (rest.map (fun q => q.2))

/-- `max(station_stddevs.values())` (only applied to a nonempty list). -/
noncomputable def max_stddev : List (Option String × ℝ) → ℝ
  | [] => 0
  | p :: rest => lmax p.2 (rest.map (fun q => q.2))

open scoped Classical in
/-- `find_temperature_stability`: `none` models the
`ValueError("No valid data for stability calculation.")` raise; otherwise
the pair (most_stable, most_variable), each holding every station within
`0.0001` of the extremal stddev. -/
noncomputable def find_temperature_stability (data : List StationRecord) :
    Option (List (Option String × ℝ) × List (Option String × ℝ)) :=
  match station_stddevs data with
  | [] => none
  | p :: rest =>
    some ((p :: rest).filter
            (fun q => decide (|q.2 - min_stddev (p :: rest)| < 1 / 10000)),
          (p :: rest).filter
            (fun q => decide (|q.2 - max_stddev (p :: rest)| < 1 / 10000)))

/-- Round a rational to the nearest integer, ties to even, modelling the
round-half-even behaviour of Python float formatting. -/
def roundHalfEven (q : ℚ) : ℤ :=
  if q - (Int.floor q : ℚ) < 1 / 2 then Int.floor q
  else if (1 / 2 : ℚ) < q - (Int.floor q : ℚ) then Int.floor q + 1
  else if Even (Int.floor q) then Int.floor q else Int.floor q + 1

/-- Python `f"{v:.1f}"` on a rational value. -/
def fmt1 (q : ℚ) : String :=
  let n := roundHalfEven (q * 10)
  (if n < 0 then "-" else "")
    ++ toString (n.natAbs / 10) ++ "." ++ toString (n.natAbs % 10)

open scoped Classical in
/-- Round a real to the nearest integer, ties to even. -/
noncomputable def roundHalfEvenR (x : ℝ) : ℤ :=
  if x - (Int.floor x : ℝ) < 1 / 2 then Int.floor x
  else if (1 / 2 : ℝ) < x - (Int.floor x : ℝ) then Int.floor x + 1
  else if Even (Int.floor x) then Int.floor x else Int.floor x + 1

/-- Python `f"{v:.1f}"` on a real value (a standard deviation). -/
noncomputable def fmt1R (x : ℝ) : String :=
  let n := roundHalfEvenR (x * 10)
  (if n < 0 then "-" else "")
    ++ toString (n.natAbs / 10) ++ "." ++ toString (n.natAbs % 10)

/-- How Python string interpolation renders a station key
(`None` for a missing name, the bare string otherwise). -/
def showKey : Option String → String
  | some s => s
  | none => "None"

/-- The lines written to `average_temp.txt`:
`f"{season}: {avg:.1f}°C"` per entry of `season_averages`. -/
def average_temp_report (data : List StationRecord) : List String :=
  (season_averages data).map (fun p => p.1 ++ ": " ++ fmt1 p.2 ++ "°C")

/-- The lines written to `temperature_stability_stations.txt`: one line per
most-stable station, then one line per most-variable station. -/
noncomputable def stability_report (data : List StationRecord) :
    Option (List String) :=
  (find_temperature_stability data).map (fun st =>
    st.1.map (fun p =>
      "Most Stable: " ++ showKey p.1
        ++ ": Smallest Standard Deviation " ++ fmt1R p.2 ++ "°C")
    ++ st.2.map (fun p =>
      "Most Variable: " ++ showKey p.1
        ++ ": Largest Standard Deviation " ++ fmt1R p.2 ++ "°C"))

/-- Ordered-dictionary lookup: value of the first entry with the given key. -/
def alookup {κ β : Type} [DecidableEq κ] : List (κ × β) → κ → Option β
  | [], _ => none
  | p :: d, k => if p.1 = k then some p.2 else alookup d k

/-- All present temperatures of the given months pooled across all records,
in record order — the spec's description of a season's observation list. -/
def seasonTemps (months : List String) (data : List StationRecord) : List ℚ :=
  data.flatMap (fun row => months.filterMap row.month)

/-- The arithmetic mean, as the spec words it. -/
def arithMean (xs : List ℚ) : ℚ := xs.sum / (xs.length : ℚ)

/-- Modelled from the spec: the sample standard deviation with n - 1
denominator, written directly over the reals — used to compare the code's
`stdev` against the spec's wording. -/
noncomputable def sampleStddevSpec (xs : List ℚ) : ℝ :=
  Real.sqrt
    (((xs.map (fun (x : ℚ) =>
        ((x : ℝ) - (xs.map (fun (y : ℚ) => (y : ℝ))).sum / (xs.length : ℝ)) ^ 2)).sum)
      / ((xs.length : ℝ) - 1))

/-- Fixture: a record whose 12 month cells are all missing. -/
def allMissingRec : StationRecord := ⟨some "A", fun _ => none⟩

/-- Fixture: a dataset holding a single all-missing record for station A. -/
def exData1 : List StationRecord := [allMissingRec]

/-- Fixture: station A with January = 1, February = 2, March = 3 and every
other month missing. -/
def recA123 : StationRecord :=
  ⟨some "A", fun m =>
    if m = "January" then some 1
    else if m = "February" then some 2
    else if m = "March" then some 3
    else none⟩

/-- Fixture: a dataset with one three-observation station. -/
def exData2 : List StationRecord := [recA123]

/-- Fixture: station B with January = 5 and every other month missing. -/
def recB5 : StationRecord :=
  ⟨some "B", fun m => if m = "January" then some 5 else none⟩

/-- Fixture: all-missing station A next to one-observation station B. -/
def exData3 : List StationRecord := [allMissingRec, recB5]

/-- Fixture: a well-formed raw CSV row for station A with January = 1,
February = 2, March = 3 and every other cell blank. -/
def rawRowA : String → Option String := fun c =>
  if c = "STATION_NAME" then some "A"
  else if c = "January" then some "1"
  else if c = "February" then some "2"
  else if c = "March" then some "3"
  else some ""

/-- Fixture: a readable CSV file with exactly the required columns and the
single row `rawRowA`. -/
def goodFile : RawFile := ⟨"good.csv", true, requiredCols, [rawRowA]⟩

/-- Fixture: a readable CSV file missing every required column. -/
def badColsFile : RawFile := ⟨"bad.csv", true, ["WRONG"], [rawRowA]⟩

section MaxMinLemmas

variable {α : Type} [LinearOrder α]

theorem self_le_lmax (x : α) (l : List α) : x ≤ lmax x l := by
  induction l generalizing x with
  | nil => exact le_refl x
  | cons a l ih => exact le_trans (le_max_left x a) (ih (max x a))

theorem lmax_mem (x : α) (l : List α) : lmax x l ∈ x :: l := by
  induction l generalizing x with
  | nil => simp [lmax]
  | cons a l ih =>
    have hstep : lmax x (a :: l) = lmax (max x a) l := rfl
    rw [hstep]
    rcases List.mem_cons.mp (ih (max x a)) with h1 | h1
    · rw [h1]
      rcases max_choice x a with h2 | h2 <;> rw [h2]
      · exact List.mem_cons_self _ _
      · exact List.mem_cons_of_mem _ (List.mem_cons_self _ _)
    · exact List.mem_cons_of_mem _ (List.mem_cons_of_mem _ h1)

theorem le_lmax (x y : α) (l : List α) (h : y ∈ x :: l) : y ≤ lmax x l := by
  induction l generalizing x with
  | nil => simp at h; simp [lmax, h]
  | cons a l ih =>
    rcases List.mem_cons.mp h with h1 | h1
    · subst h1
      exact le_trans (le_max_left y a) (self_le_lmax (max y a) l)
    · rcases List.mem_cons.mp h1 with h2 | h2
      · subst h2
        exact le_trans (le_max_right x y) (self_le_lmax (max x y) l)
      · exact ih (max x a) (List.mem_cons_of_mem _ h2)

theorem lmin_le_self (x : α) (l : List α) : lmin x l ≤ x := by
  induction l generalizing x with
  | nil => exact le_refl x
  | cons a l ih => exact le_trans (ih (min x a)) (min_le_left x a)

theorem lmin_mem (x : α) (l : List α) : lmin x l ∈ x :: l := by
  induction l generalizing x with
  | nil => simp [lmin]
  | cons a l ih =>
    have hstep : lmin x (a :: l) = lmin (min x a) l := rfl
    rw [hstep]
    rcases List.mem_cons.mp (ih (min x a)) with h1 | h1
    · rw [h1]
      rcases min_choice x a with h2 | h2 <;> rw [h2]
      · exact List.mem_cons_self _ _
      · exact List.mem_cons_of_mem _ (List.mem_cons_self _ _)
    · exact List.mem_cons_of_mem _ (List.mem_cons_of_mem _ h1)

theorem lmin_le (x y : α) (l : List α) (h : y ∈ x :: l) : lmin x l ≤ y := by
  induction l generalizing x with
  | nil => simp at h; simp [lmin, h]
  | cons a l ih =>
    rcases List.mem_cons.mp h with h1 | h1
    · subst h1
      exact le_trans (lmin_le_self (min y a) l) (min_le_left y a)
    · rcases List.mem_cons.mp h1 with h2 | h2
      · subst h2
        exact le_trans (lmin_le_self (min x y) l) (min_le_right x y)
      · exact ih (min x a) (List.mem_cons_of_mem _ h2)

theorem le_lmin (x c : α) (l : List α) (h : ∀ y ∈ x :: l, c ≤ y) :
    c ≤ lmin x l := by
  have := lmin_mem x l
  exact h _ this

end MaxMinLemmas

section DextendLemmas

variable {κ α : Type} [DecidableEq κ]

theorem dextend_keys (d : List (κ × List α)) (k : κ) (v : List α) :
    (dextend d k v).map Prod.fst =
      if k ∈ d.map Prod.fst then d.map Prod.fst else d.map Prod.fst ++ [k] := by
  unfold dextend
  split
  · rw [List.map_map]
    congr 1
    · funext p
      by_cases h : p.1 = k <;> simp [h]
  · simp

theorem dextend_keys_nodup (d : List (κ × List α)) (k : κ) (v : List α)
    (h : (d.map Prod.fst).Nodup) : ((dextend d k v).map Prod.fst).Nodup := by
  rw [dextend_keys]
  split
  · exact h
  · rename_i hk
    simp [List.nodup_append, h, hk]

theorem dextend_ne_nil (d : List (κ × List α)) (k : κ) (v : List α) :
    dextend d k v ≠ [] := by
  unfold dextend
  split
  · intro h
    rcases d with _ | ⟨p, d⟩
    · simp at *
    · simp at h
  · simp

theorem mem_dextend_of_ne (d : List (κ × List α)) (k : κ) (v : List α)
    (p : κ × List α) (hp : p ∈ d) (hne : p.1 ≠ k) : p ∈ dextend d k v := by
  unfold dextend
  split
  · refine List.mem_map.mpr ⟨p, hp, ?_⟩
    simp [hne]
  · exact List.mem_append_left _ hp

end DextendLemmas

section AssocLemmas

variable {κ β : Type} [DecidableEq κ]

theorem alookup_eq_some_of_mem (d : List (κ × β)) (k : κ) (v : β)
    (hnd : (d.map Prod.fst).Nodup) (hm : (k, v) ∈ d) :
    alookup d k = some v := by
  induction d with
  | nil => simp at hm
  | cons p d ih =>
    rcases List.mem_cons.mp hm with h1 | h1
    · subst h1
      simp [alookup]
    · have hk : p.1 ≠ k := by
        intro he
        have : k ∈ d.map Prod.fst :=
          List.mem_map.mpr ⟨(k, v), h1, rfl⟩
        rw [List.map_cons, List.nodup_cons, he] at hnd
        exact hnd.1 this
      simp only [alookup, if_neg hk]
      exact ih (List.nodup_cons.mp (by simpa using hnd)).2 h1

theorem nodup_pairs_eq (d : List (κ × β)) (k : κ) (a b : β)
    (hnd : (d.map Prod.fst).Nodup) (ha : (k, a) ∈ d) (hb : (k, b) ∈ d) :
    a = b := by
  have h1 := alookup_eq_some_of_mem d k a hnd ha
  have h2 := alookup_eq_some_of_mem d k b hnd hb
  rw [h1] at h2
  exact Option.some.inj h2

end AssocLemmas

section StationTempsLemmas

theorem station_temps_aux_nodup (data : List StationRecord)
    (d : List (Option String × List ℚ)) (h : (d.map Prod.fst).Nodup) :
    ((data.foldl
        (fun d row =>
          dextend d row.STATION_NAME (ALL_MONTHS.filterMap row.month)) d).map
      Prod.fst).Nodup := by
  induction data generalizing d with
  | nil => exact h
  | cons r rs ih =>
    exact ih _ (dextend_keys_nodup _ _ _ h)

theorem station_temps_keys_nodup (data : List StationRecord) :
    ((station_temps data).map Prod.fst).Nodup :=
  station_temps_aux_nodup data [] (by simp)

theorem station_temps_aux_ne_nil (data : List StationRecord)
    (d : List (Option String × List ℚ)) (h : d ≠ []) :
    data.foldl
      (fun d row =>
        dextend d row.STATION_NAME (ALL_MONTHS.filterMap row.month)) d ≠ [] := by
  induction data generalizing d with
  | nil => exact h
  | cons r rs ih => exact ih _ (dextend_ne_nil _ _ _)

theorem station_temps_eq_nil_iff (data : List StationRecord) :
    station_temps data = [] ↔ data = [] := by
  constructor
  · intro h
    rcases data with _ | ⟨r, rs⟩
    · rfl
    · exact absurd h
        (station_temps_aux_ne_nil rs _ (dextend_ne_nil [] _ _))
  · intro h
    subst h
    rfl

end StationTempsLemmas

section SeasonLemmas

theorem seasonStep_full (a b c d : List ℚ) (row : StationRecord) :
    seasonStep
      [("Summer", a), ("Autumn", b), ("Winter", c), ("Spring", d)] row =
      [("Summer", a ++ ["December", "January", "February"].filterMap row.month),
       ("Autumn", b ++ ["March", "April", "May"].filterMap row.month),
       ("Winter", c ++ ["June", "July", "August"].filterMap row.month),
       ("Spring", d ++ ["September", "October", "November"].filterMap row.month)] :=
  rfl

theorem seasonStep_nil (row : StationRecord) :
    seasonStep [] row =
      [("Summer", ["December", "January", "February"].filterMap row.month),
       ("Autumn", ["March", "April", "May"].filterMap row.month),
       ("Winter", ["June", "July", "August"].filterMap row.month),
       ("Spring", ["September", "October", "November"].filterMap row.month)] :=
  rfl

theorem season_data_aux (rs : List StationRecord) (a b c d : List ℚ) :
    rs.foldl seasonStep
      [("Summer", a), ("Autumn", b), ("Winter", c), ("Spring", d)] =
      [("Summer", a ++ seasonTemps ["December", "January", "February"] rs),
       ("Autumn", b ++ seasonTemps ["March", "April", "May"] rs),
       ("Winter", c ++ seasonTemps ["June", "July", "August"] rs),
       ("Spring", d ++ seasonTemps ["September", "October", "November"] rs)] := by
  induction rs generalizing a b c d with
  | nil => simp [seasonTemps]
  | cons r rs ih =>
    rw [List.foldl_cons, seasonStep_full, ih]
    simp [seasonTemps, List.append_assoc]

theorem season_data_eq (data : List StationRecord) (h : data ≠ []) :
    season_data data = SEASONS.map (fun sp => (sp.1, seasonTemps sp.2 data)) := by
  rcases data with _ | ⟨r, rs⟩
  · exact absurd rfl h
  · show (r :: rs).foldl seasonStep [] = _
    rw [List.foldl_cons, seasonStep_nil, season_data_aux]
    simp [SEASONS, seasonTemps]

theorem row_cells_split (f : String → Option ℚ) :
    (["December", "January", "February"].filterMap f).length +
      (["March", "April", "May"].filterMap f).length +
      (["June", "July", "August"].filterMap f).length +
      (["September", "October", "November"].filterMap f).length =
      (ALL_MONTHS.filterMap f).length := by
  have h : ALL_MONTHS =
      ["December", "January", "February"] ++
        (["March", "April", "May"] ++
          (["June", "July", "August"] ++
            ["September", "October", "November"])) := rfl
  rw [h, List.filterMap_append, List.filterMap_append, List.filterMap_append,
    List.length_append, List.length_append, List.length_append]
  omega

theorem seasonal_count_eq (data : List StationRecord) :
    (seasonTemps ["December", "January", "February"] data).length +
      (seasonTemps ["March", "April", "May"] data).length +
      (seasonTemps ["June", "July", "August"] data).length +
      (seasonTemps ["September", "October", "November"] data).length =
      (data.map (fun row => (ALL_MONTHS.filterMap row.month).length)).sum := by
  induction data with
  | nil => rfl
  | cons r rs ih =>
    simp only [seasonTemps, List.flatMap_cons, List.length_append,
      List.map_cons, List.sum_cons]
    rw [← ih]
    have := row_cells_split r.month
    simp only [seasonTemps]
    omega

end SeasonLemmas

section LoaderLemmas

theorem processFile_of_accepted (f : RawFile) (h : acceptedFile f) :
    processFile f = f.rows.map cleanRow := by
  unfold processFile
  rw [if_pos h]

theorem processFile_of_not_accepted (f : RawFile) (h : ¬ acceptedFile f) :
    processFile f = [] := by
  unfold processFile
  rw [if_neg h]

theorem isEmpty_iff_eq_nil {α : Type} (l : List α) : l.isEmpty = true ↔ l = [] := by
  cases l <;> simp

theorem processFile_length (f : RawFile) :
    (processFile f).length = if acceptedFile f then f.rows.length else 0 := by
  by_cases h : acceptedFile f
  · rw [processFile_of_accepted f h, if_pos h, List.length_map]
  · rw [processFile_of_not_accepted f h, if_neg h]
    rfl

theorem read_csv_files_some (files : List RawFile) :
    read_csv_files (some files) =
      if (files.filter (fun f => strEndsWith f.name ".csv")).isEmpty then
        Except.error LoadError.NoInputFiles
      else if ((files.filter (fun f => strEndsWith f.name ".csv")).flatMap
          processFile).isEmpty then
        Except.error LoadError.NoValidData
      else
        Except.ok ((files.filter (fun f => strEndsWith f.name ".csv")).flatMap
          processFile) := rfl

theorem read_ok_iff (files : List RawFile) (d : List StationRecord) :
    read_csv_files (some files) = Except.ok d ↔
      ((files.filter (fun f => strEndsWith f.name ".csv")).flatMap processFile = d
        ∧ d ≠ []) := by
  rw [read_csv_files_some]
  by_cases h1 : (files.filter (fun f => strEndsWith f.name ".csv")).isEmpty = true
  · rw [if_pos h1]
    have h1' := (isEmpty_iff_eq_nil _).mp h1
    constructor
    · intro h; exact Except.noConfusion h
    · rintro ⟨rfl, h2⟩
      rw [h1'] at h2
      simp at h2
  · rw [if_neg h1]
    by_cases h2 : ((files.filter (fun f => strEndsWith f.name ".csv")).flatMap
        processFile).isEmpty = true
    · rw [if_pos h2]
      have h2' := (isEmpty_iff_eq_nil _).mp h2
      constructor
      · intro h; exact Except.noConfusion h
      · rintro ⟨rfl, h3⟩; exact absurd h2' h3
    · rw [if_neg h2]
      have h2' : (files.filter (fun f => strEndsWith f.name ".csv")).flatMap
          processFile ≠ [] :=
        fun he => h2 ((isEmpty_iff_eq_nil _).mpr he)
      constructor
      · intro h
        injection h with h3
        exact ⟨h3, h3 ▸ h2'⟩
      · rintro ⟨rfl, h3⟩; rfl

theorem read_folder_err_iff (folder : Option (List RawFile)) :
    read_csv_files folder = Except.error LoadError.FolderNotFound ↔
      folder = none := by
  cases folder with
  | none => simp [read_csv_files]
  | some files =>
    rw [read_csv_files_some]
    constructor
    · intro h
      by_cases h1 : (files.filter (fun f => strEndsWith f.name ".csv")).isEmpty
          = true
      · rw [if_pos h1] at h
        exact absurd h (by simp)
      · rw [if_neg h1] at h
        by_cases h2 : ((files.filter (fun f => strEndsWith f.name ".csv")).flatMap
            processFile).isEmpty = true
        · rw [if_pos h2] at h
          exact absurd h (by simp)
        · rw [if_neg h2] at h
          exact Except.noConfusion h
    · intro h; exact Option.noConfusion h

theorem read_no_input_iff (files : List RawFile) :
    read_csv_files (some files) = Except.error LoadError.NoInputFiles ↔
      files.filter (fun f => strEndsWith f.name ".csv") = [] := by
  rw [read_csv_files_some]
  by_cases h1 : (files.filter (fun f => strEndsWith f.name ".csv")).isEmpty = true
  · rw [if_pos h1]
    simp [(isEmpty_iff_eq_nil _).mp h1]
  · rw [if_neg h1]
    have h1' : files.filter (fun f => strEndsWith f.name ".csv") ≠ [] :=
      fun he => h1 ((isEmpty_iff_eq_nil _).mpr he)
    by_cases h2 : ((files.filter (fun f => strEndsWith f.name ".csv")).flatMap
        processFile).isEmpty = true
    · rw [if_pos h2]
      simp [h1']
    · rw [if_neg h2]
      simp [h1']

theorem read_no_valid_iff (files : List RawFile) :
    read_csv_files (some files) = Except.error LoadError.NoValidData ↔
      (files.filter (fun f => strEndsWith f.name ".csv") ≠ [] ∧
        (files.filter (fun f => strEndsWith f.name ".csv")).flatMap processFile
          = []) := by
  rw [read_csv_files_some]
  by_cases h1 : (files.filter (fun f => strEndsWith f.name ".csv")).isEmpty = true
  · rw [if_pos h1]
    simp [(isEmpty_iff_eq_nil _).mp h1]
  · rw [if_neg h1]
    have h1' : files.filter (fun f => strEndsWith f.name ".csv") ≠ [] :=
      fun he => h1 ((isEmpty_iff_eq_nil _).mpr he)
    by_cases h2 : ((files.filter (fun f => strEndsWith f.name ".csv")).flatMap
        processFile).isEmpty = true
    · rw [if_pos h2]
      simp [h1', (isEmpty_iff_eq_nil _).mp h2]
    · rw [if_neg h2]
      have h2' : (files.filter (fun f => strEndsWith f.name ".csv")).flatMap
          processFile ≠ [] :=
        fun he => h2 ((isEmpty_iff_eq_nil _).mpr he)
      simp [h1', h2']

theorem read_skip_bad (files : List RawFile) (f : RawFile)
    (hbad : ¬ acceptedFile f) (d : List StationRecord) :
    read_csv_files (some files) = Except.ok d ↔
      read_csv_files (some (files ++ [f])) = Except.ok d := by
  rw [read_ok_iff, read_ok_iff, List.filter_append, List.flatMap_append]
  have hf : ((List.filter (fun f => strEndsWith f.name ".csv") [f]).flatMap
      processFile) = [] := by
    by_cases hc : strEndsWith f.name ".csv" = true
    · simp [List.filter_cons, hc, processFile_of_not_accepted f hbad]
    · simp [List.filter_cons, hc]
  rw [hf, List.append_nil]

end LoaderLemmas

section StddevLemmas

theorem svariance_cast (xs : List ℚ) :
    ((svariance xs : ℚ) : ℝ) =
      ((xs.map (fun (x : ℚ) =>
          ((x : ℝ) - (xs.map (fun (y : ℚ) => (y : ℝ))).sum / (xs.length : ℝ)) ^ 2)).sum)
        / ((xs.length : ℝ) - 1) := by
  unfold svariance lmean
  rw [Rat.cast_div, Rat.cast_list_sum, List.map_map]
  congr 1
  · refine congrArg List.sum (List.map_congr_left ?_)
    intro x hx
    simp only [Function.comp_apply]
    push_cast [Rat.cast_list_sum]
    ring
  · push_cast
    ring

theorem stdev_eq_spec (xs : List ℚ) : stdev xs = sampleStddevSpec xs := by
  unfold stdev sampleStddevSpec
  rw [svariance_cast]

theorem stdev_nonneg (xs : List ℚ) : 0 ≤ stdev xs := Real.sqrt_nonneg _

end StddevLemmas

section ConcreteEval

theorem station_stddevs_exData1 :
    station_stddevs exData1 = [(some "A", 0)] := rfl

theorem find_range_exData1 : find_largest_temp_range exData1 = none := rfl

theorem find_stab_exData1 :
    find_temperature_stability exData1 =
      some ([(some "A", 0)], [(some "A", 0)]) := by
  have h : station_stddevs exData1 = [(some "A", (0 : ℝ))] := rfl
  unfold find_temperature_stability
  rw [h]
  have hmn : min_stddev [((some "A" : Option String), (0 : ℝ))] = 0 := rfl
  have hmx : max_stddev [((some "A" : Option String), (0 : ℝ))] = 0 := rfl
  simp only [List.filter_cons, List.filter_nil, hmn, hmx, sub_zero, abs_zero,
    decide_eq_true_eq]
  norm_num

theorem roundHalfEvenR_zero : roundHalfEvenR 0 = 0 := by
  unfold roundHalfEvenR
  norm_num

theorem fmt1R_zero : fmt1R 0 = "0.0" := by
  have h : roundHalfEvenR ((0 : ℝ) * 10) = 0 := by
    rw [zero_mul]
    exact roundHalfEvenR_zero
  unfold fmt1R
  rw [h]
  decide

theorem parseFloat_one : parseFloat "1" = some 1 := by
  have h : parseFloat "1" = some (1 * ((1 : ℕ) : ℚ)) := rfl
  rw [h]
  norm_num

end ConcreteEval

section ExtremalHelpers

theorem find_range_eq (data : List StationRecord) (q : Option String × RangeInfo)
    (rest : List (Option String × RangeInfo))
    (h : station_ranges data = q :: rest) :
    find_largest_temp_range data =
      some ((q :: rest).filter
        (fun x => decide (|x.2.range - max_range (q :: rest)| < 1 / 10000))) := by
  unfold find_largest_temp_range
  rw [h]

theorem find_stab_eq (data : List StationRecord) (q : Option String × ℝ)
    (rest : List (Option String × ℝ)) (h : station_stddevs data = q :: rest) :
    find_temperature_stability data =
      some ((q :: rest).filter
          (fun x => decide (|x.2 - min_stddev (q :: rest)| < 1 / 10000)),
        (q :: rest).filter
          (fun x => decide (|x.2 - max_stddev (q :: rest)| < 1 / 10000))) := by
  unfold find_temperature_stability
  rw [h]

theorem stddevs_nonneg (data : List StationRecord) :
    ∀ q ∈ station_stddevs data, (0 : ℝ) ≤ q.2 := by
  intro q hq
  obtain ⟨p, hp, rfl⟩ := List.mem_map.mp hq
  dsimp only
  split
  · exact stdev_nonneg _
  · exact le_refl 0

theorem station_stddevs_fst (data : List StationRecord) :
    (station_stddevs data).map Prod.fst = (station_temps data).map Prod.fst := by
  unfold station_stddevs
  rw [List.map_map]
  rfl

theorem station_stddevs_keys_nodup (data : List StationRecord) :
    ((station_stddevs data).map Prod.fst).Nodup := by
  rw [station_stddevs_fst]
  exact station_temps_keys_nodup data

theorem station_stddevs_cons (data : List StationRecord) (h : data ≠ []) :
    ∃ a b, station_stddevs data = a :: b := by
  have h0 : station_temps data ≠ [] :=
    fun he => h ((station_temps_eq_nil_iff data).mp he)
  cases hh : station_stddevs data with
  | nil =>
    exfalso
    apply h0
    unfold station_stddevs at hh
    exact List.map_eq_nil_iff.mp hh
  | cons a b => exact ⟨a, b, rfl⟩

theorem min_stddev_zero (q : Option String × ℝ) (rest : List (Option String × ℝ))
    (s : Option String) (hmem0 : (s, (0 : ℝ)) ∈ q :: rest)
    (hnn : ∀ x ∈ q :: rest, (0 : ℝ) ≤ x.2) :
    min_stddev (q :: rest) = 0 := by
  have h0mem : (0 : ℝ) ∈ q.2 :: rest.map (fun x => x.2) := by
    rcases List.mem_cons.mp hmem0 with h1 | h1
    · subst h1
      exact List.mem_cons_self _ _
    · exact List.mem_cons_of_mem _ (List.mem_map.mpr ⟨_, h1, rfl⟩)
  have hle : min_stddev (q :: rest) ≤ 0 := lmin_le _ _ _ h0mem
  have hge : (0 : ℝ) ≤ min_stddev (q :: rest) := by
    apply le_lmin
    intro y hy
    rcases List.mem_cons.mp hy with h1 | h1
    · rw [h1]
      exact hnn q (List.mem_cons_self _ _)
    · obtain ⟨x, hx, rfl⟩ := List.mem_map.mp h1
      exact hnn x (List.mem_cons_of_mem _ hx)
  exact le_antisymm hle hge

end ExtremalHelpers

/-- C5: the Loader fails with `FolderNotFound` exactly on a missing folder,
with `NoInputFiles` exactly when no file has a `.csv` name, and with
`NoValidData` exactly when the files accumulate no rows; appending a file
that is unreadable or misses required columns never changes a successful
run's output (the bad file is skipped, it does not abort). -/
theorem C5_loader_errors :
    (∀ folder, read_csv_files folder = Except.error LoadError.FolderNotFound ↔
      folder = none)
    ∧ (∀ files,
        read_csv_files (some files) = Except.error LoadError.NoInputFiles ↔
          files.filter (fun f => strEndsWith f.name ".csv") = [])
    ∧ (∀ files,
        read_csv_files (some files) = Except.error LoadError.NoValidData ↔
          (files.filter (fun f => strEndsWith f.name ".csv") ≠ [] ∧
            (files.filter (fun f => strEndsWith f.name ".csv")).flatMap
              processFile = []))
    ∧ (∀ files f d, ¬ acceptedFile f →
        (read_csv_files (some files) = Except.ok d ↔
          read_csv_files (some (files ++ [f])) = Except.ok d)) :=
  ⟨read_folder_err_iff, read_no_input_iff, read_no_valid_iff,
    fun files f d hbad => read_skip_bad files f hbad d⟩

/-- C5 witness: the folder `none` fails with `FolderNotFound`, and appending
the column-deficient `badColsFile` to a folder holding `goodFile` leaves the
successful result unchanged. -/
theorem C5_loader_errors_witness :
    (¬ acceptedFile badColsFile)
    ∧ (read_csv_files (some [goodFile]) = Except.ok [cleanRow rawRowA] ↔
        read_csv_files (some [goodFile, badColsFile]) =
          Except.ok [cleanRow rawRowA])
    ∧ read_csv_files none = Except.error LoadError.FolderNotFound :=
  ⟨by decide,
   C5_loader_errors.2.2.2 [goodFile] badColsFile [cleanRow rawRowA] (by decide),
   (C5_loader_errors.1 none).mpr rfl⟩

/-- C6: in an accepted file every data row is kept; a missing, blank,
whitespace-only, or unparsable month cell becomes the missing marker and a
parsable one its numeric value; the Loader's output row count is the sum of
row counts over accepted files, files missing required columns contributing
0 rows. -/
theorem C6_loader_rows :
    (cleanCell none = none)
    ∧ (∀ s, strTrimChars s.toList = [] → cleanCell (some s) = none)
    ∧ (∀ s, parseFloat s = none → cleanCell (some s) = none)
    ∧ (∀ s q, strTrimChars s.toList ≠ [] → parseFloat s = some q →
        cleanCell (some s) = some q)
    ∧ (∀ row m, m ∈ ALL_MONTHS → (cleanRow row).month m = cleanCell (row m))
    ∧ (∀ f, acceptedFile f → processFile f = f.rows.map cleanRow)
    ∧ (∀ files d, read_csv_files (some files) = Except.ok d →
        d.length = ((files.filter (fun f => strEndsWith f.name ".csv")).map
          (fun f => if acceptedFile f then f.rows.length else 0)).sum) := by
  refine ⟨rfl, ?_, ?_, ?_, ?_, processFile_of_accepted, ?_⟩
  · intro s hs
    show (if strTrimChars s.toList = [] then none else parseFloat s) = none
    rw [if_pos hs]
  · intro s hs
    show (if strTrimChars s.toList = [] then none else parseFloat s) = none
    by_cases ht : strTrimChars s.toList = []
    · rw [if_pos ht]
    · rw [if_neg ht]
      exact hs
  · intro s q ht hq
    show (if strTrimChars s.toList = [] then none else parseFloat s) = some q
    rw [if_neg ht]
    exact hq
  · intro row m hm
    show (if m ∈ ALL_MONTHS then cleanCell (row m) else none) = cleanCell (row m)
    rw [if_pos hm]
  · intro files d h
    have h1 := (read_ok_iff files d).mp h
    rw [← h1.1, List.length_flatMap]
    refine congrArg List.sum (List.map_congr_left ?_)
    intro f hf
    exact processFile_length f

/-- C6 witness: a folder with one accepted and one column-deficient file
yields exactly the accepted file's single row, and the cell `"1"` parses to
the temperature 1. -/
theorem C6_loader_rows_witness :
    (read_csv_files (some [goodFile, badColsFile]) =
        Except.ok [cleanRow rawRowA])
    ∧ ([cleanRow rawRowA] : List StationRecord).length =
        (([goodFile, badColsFile].filter
            (fun f => strEndsWith f.name ".csv")).map
          (fun f => if acceptedFile f then f.rows.length else 0)).sum
    ∧ (strTrimChars "1".toList ≠ [] ∧ parseFloat "1" = some 1 ∧
        cleanCell (some "1") = some 1) := by
  refine ⟨rfl, C6_loader_rows.2.2.2.2.2.2 [goodFile, badColsFile] _ rfl,
    by decide, parseFloat_one, ?_⟩
  exact C6_loader_rows.2.2.2.1 "1" 1 (by decide) parseFloat_one

/-- C7: for a nonempty Dataset (the Loader never returns an empty one),
every season's statistic is the arithmetic mean of all present temperatures
of the season's 3 months pooled across all records, with no grouping by
station, and a season with zero observations gets exactly 0 instead of an
error. -/
theorem C7_seasonal_means (data : List StationRecord) (h : data ≠ []) :
    ∀ sp ∈ SEASONS,
      alookup (season_averages data) sp.1 =
        some (if seasonTemps sp.2 data = [] then 0
              else arithMean (seasonTemps sp.2 data)) := by
  intro sp hsp
  unfold season_averages
  rw [season_data_eq data h, List.map_map]
  simp only [SEASONS, List.mem_cons, List.mem_singleton, List.not_mem_nil,
    or_false] at hsp
  rcases hsp with rfl | rfl | rfl | rfl <;>
    simp [alookup, SEASONS, arithMean]

/-- C7 witness: at a concrete one-record dataset the Summer entry is the
mean of the pooled Summer observations. -/
theorem C7_seasonal_means_witness :
    (exData2 ≠ [] ∧
      (("Summer", ["December", "January", "February"]) : String × List String)
        ∈ SEASONS)
    ∧ alookup (season_averages exData2) "Summer" =
        some (if seasonTemps ["December", "January", "February"] exData2 = []
              then 0
              else arithMean
                (seasonTemps ["December", "January", "February"] exData2)) := by
  have h1 : exData2 ≠ [] := List.cons_ne_nil _ _
  have h2 : (("Summer", ["December", "January", "February"]) :
      String × List String) ∈ SEASONS := by decide
  exact ⟨⟨h1, h2⟩, C7_seasonal_means exData2 h1 _ h2⟩

/-- C8: for a nonempty Dataset the seasonal report has exactly four lines,
one per season in the fixed order Summer, Autumn, Winter, Spring, each of
the form `<Season>: <avg>°C` with the average formatted to one decimal. -/
theorem C8_seasonal_report (data : List StationRecord) (h : data ≠ []) :
    average_temp_report data =
      SEASONS.map (fun sp =>
        sp.1 ++ ": " ++
          fmt1 (if seasonTemps sp.2 data = [] then 0
                else arithMean (seasonTemps sp.2 data)) ++ "°C")
    ∧ (average_temp_report data).length = 4 := by
  have he : average_temp_report data =
      SEASONS.map (fun sp =>
        sp.1 ++ ": " ++
          fmt1 (if seasonTemps sp.2 data = [] then 0
                else arithMean (seasonTemps sp.2 data)) ++ "°C") := by
    unfold average_temp_report season_averages
    rw [season_data_eq data h, List.map_map, List.map_map]
    rfl
  refine ⟨he, ?_⟩
  rw [he]
  rfl

/-- C8 witness: the report for a concrete one-record dataset has four
lines. -/
theorem C8_seasonal_report_witness :
    exData2 ≠ [] ∧ (average_temp_report exData2).length = 4 := by
  have h : exData2 ≠ [] := List.cons_ne_nil _ _
  exact ⟨h, (C8_seasonal_report exData2 h).2⟩

/-- C10: the four seasons partition the twelve months (no duplicates, each
month in exactly one season, union equal to the fixed 12-month set), and for
every Dataset the per-season observation counts add up to the total number
of present month cells over all records. -/
theorem C10_partition :
    ALL_MONTHS.Nodup
    ∧ ALL_MONTHS.Perm
        ["January", "February", "March", "April", "May", "June", "July",
         "August", "September", "October", "November", "December"]
    ∧ (∀ m ∈ ALL_MONTHS,
        (SEASONS.filter (fun sp => decide (m ∈ sp.2))).length = 1)
    ∧ (∀ data : List StationRecord,
        ((season_data data).map (fun p => p.2.length)).sum =
          (data.map (fun row => (ALL_MONTHS.filterMap row.month).length)).sum) := by
  refine ⟨by decide, by decide, by decide, ?_⟩
  intro data
  rcases data with _ | ⟨r, rs⟩
  · rfl
  · rw [season_data_eq (r :: rs) (by simp), List.map_map]
    have h := seasonal_count_eq (r :: rs)
    simp only [SEASONS, List.map_cons, List.map_nil, List.sum_cons,
      List.sum_nil, Function.comp_apply] at h ⊢
    omega

/-- C4: when at least one station has pooled data, each extremal search
returns exactly the stations whose statistic is strictly within 1e-4 of the
true extremum (maximal range, minimal stddev, maximal stddev), so all tied
stations are reported together. -/
theorem C4_tie_tolerance (data : List StationRecord)
    (H : ∃ p ∈ station_temps data, p.2 ≠ []) :
    (∃ M res, find_largest_temp_range data = some res
      ∧ (∃ q ∈ station_ranges data, q.2.range = M)
      ∧ (∀ q ∈ station_ranges data, q.2.range ≤ M)
      ∧ (∀ q, q ∈ res ↔
          q ∈ station_ranges data ∧ |q.2.range - M| < 1 / 10000))
    ∧ (∃ mS stb var, find_temperature_stability data = some (stb, var)
      ∧ (∃ q ∈ station_stddevs data, q.2 = mS)
      ∧ (∀ q ∈ station_stddevs data, mS ≤ q.2)
      ∧ (∀ q, q ∈ stb ↔ q ∈ station_stddevs data ∧ |q.2 - mS| < 1 / 10000)
      ∧ ∃ mV, (∃ q ∈ station_stddevs data, q.2 = mV)
        ∧ (∀ q ∈ station_stddevs data, q.2 ≤ mV)
        ∧ (∀ q, q ∈ var ↔
            q ∈ station_stddevs data ∧ |q.2 - mV| < 1 / 10000)) := by
  obtain ⟨p, hp, hne⟩ := H
  have hdne : data ≠ [] := by
    intro he
    subst he
    exact List.not_mem_nil p hp
  constructor
  · obtain ⟨t, ts, ht⟩ : ∃ t ts, p.2 = t :: ts := by
      cases hh : p.2 with
      | nil => exact absurd hh hne
      | cons a b => exact ⟨a, b, rfl⟩
    have hmem : (p.1,
        (⟨lmax t ts - lmin t ts, lmax t ts, lmin t ts⟩ : RangeInfo))
        ∈ station_ranges data := by
      unfold station_ranges
      exact List.mem_filterMap.mpr ⟨p, hp, by rw [ht]⟩
    obtain ⟨q, rest, hsr⟩ : ∃ a b, station_ranges data = a :: b := by
      cases hh : station_ranges data with
      | nil =>
        rw [hh] at hmem
        exact absurd hmem (List.not_mem_nil _)
      | cons a b => exact ⟨a, b, rfl⟩
    refine ⟨max_range (q :: rest), _, find_range_eq data q rest hsr,
      ?_, ?_, ?_⟩
    · rw [hsr]
      have h1 : max_range (q :: rest) ∈ (q :: rest).map (fun x => x.2.range) := by
        have h2 := lmax_mem q.2.range (rest.map (fun x => x.2.range))
        simpa [max_range] using h2
      obtain ⟨x, hx, he⟩ := List.mem_map.mp h1
      exact ⟨x, hx, he⟩
    · intro x hx
      rw [hsr] at hx
      have hm : x.2.range ∈ q.2.range :: rest.map (fun y => y.2.range) := by
        rcases List.mem_cons.mp hx with h1 | h1
        · rw [h1]
          exact List.mem_cons_self _ _
        · exact List.mem_cons_of_mem _ (List.mem_map.mpr ⟨x, h1, rfl⟩)
      exact le_lmax _ _ _ hm
    · intro x
      constructor
      · intro hx
        have h1 := List.mem_filter.mp hx
        exact ⟨by rw [hsr]; exact h1.1, of_decide_eq_true h1.2⟩
      · rintro ⟨hx1, hx2⟩
        rw [hsr] at hx1
        exact List.mem_filter.mpr ⟨hx1, decide_eq_true hx2⟩
  · obtain ⟨q, rest, hsd⟩ := station_stddevs_cons data hdne
    refine ⟨min_stddev (q :: rest), _, _, find_stab_eq data q rest hsd,
      ?_, ?_, ?_, ?_⟩
    · rw [hsd]
      have h1 : min_stddev (q :: rest) ∈ q.2 :: rest.map (fun x => x.2) :=
        lmin_mem _ _
      rcases List.mem_cons.mp h1 with h2 | h2
      · exact ⟨q, List.mem_cons_self _ _, h2.symm⟩
      · obtain ⟨x, hx, he⟩ := List.mem_map.mp h2
        exact ⟨x, List.mem_cons_of_mem _ hx, he⟩
    · intro x hx
      rw [hsd] at hx
      have hm : x.2 ∈ q.2 :: rest.map (fun y => y.2) := by
        rcases List.mem_cons.mp hx with h1 | h1
        · rw [h1]
          exact List.mem_cons_self _ _
        · exact List.mem_cons_of_mem _ (List.mem_map.mpr ⟨x, h1, rfl⟩)
      exact lmin_le _ _ _ hm
    · intro x
      constructor
      · intro hx
        have h1 := List.mem_filter.mp hx
        exact ⟨by rw [hsd]; exact h1.1, of_decide_eq_true h1.2⟩
      · rintro ⟨hx1, hx2⟩
        rw [hsd] at hx1
        exact List.mem_filter.mpr ⟨hx1, decide_eq_true hx2⟩
    · refine ⟨max_stddev (q :: rest), ?_, ?_, ?_⟩
      · rw [hsd]
        have h1 : max_stddev (q :: rest) ∈ q.2 :: rest.map (fun x => x.2) :=
          lmax_mem _ _
        rcases List.mem_cons.mp h1 with h2 | h2
        · exact ⟨q, List.mem_cons_self _ _, h2.symm⟩
        · obtain ⟨x, hx, he⟩ := List.mem_map.mp h2
          exact ⟨x, List.mem_cons_of_mem _ hx, he⟩
      · intro x hx
        rw [hsd] at hx
        have hm : x.2 ∈ q.2 :: rest.map (fun y => y.2) := by
          rcases List.mem_cons.mp hx with h1 | h1
          · rw [h1]
            exact List.mem_cons_self _ _
          · exact List.mem_cons_of_mem _ (List.mem_map.mpr ⟨x, h1, rfl⟩)
        exact le_lmax _ _ _ hm
      · intro x
        constructor
        · intro hx
          have h1 := List.mem_filter.mp hx
          exact ⟨by rw [hsd]; exact h1.1, of_decide_eq_true h1.2⟩
        · rintro ⟨hx1, hx2⟩
          rw [hsd] at hx1
          exact List.mem_filter.mpr ⟨hx1, decide_eq_true hx2⟩

/-- C4 witness: a dataset with one pooled station satisfies the hypothesis
and both searches return results. -/
theorem C4_tie_tolerance_witness :
    (∃ p ∈ station_temps exData2, p.2 ≠ [])
    ∧ (∃ res, find_largest_temp_range exData2 = some res)
    ∧ (∃ st, find_temperature_stability exData2 = some st) := by
  have hh : ∃ p ∈ station_temps exData2, p.2 ≠ [] := by decide
  have h := C4_tie_tolerance exData2 hh
  obtain ⟨⟨M, res, hfind, -⟩, ⟨mS, stb, var, hstab, -⟩⟩ := h
  exact ⟨hh, ⟨res, hfind⟩, ⟨(stb, var), hstab⟩⟩

/-- C9: a station with at least 2 pooled values gets the sample standard
deviation (n - 1 denominator); a station with exactly 1 pooled value gets
the literal 0.0, appears in the insufficient-data log, and still carries a
key in the stddev table used by the extremal search. -/
theorem C9_station_stddev (data : List StationRecord) :
    ∀ p ∈ station_temps data,
      (2 ≤ p.2.length →
        alookup (station_stddevs data) p.1 = some (sampleStddevSpec p.2))
      ∧ (p.2.length = 1 →
        alookup (station_stddevs data) p.1 = some 0
          ∧ p.1 ∈ insufficient_data_log data
          ∧ p.1 ∈ (station_stddevs data).map Prod.fst) := by
  intro p hp
  have hnd := station_stddevs_keys_nodup data
  constructor
  · intro hlen
    have hmem : (p.1, if 1 < p.2.length then stdev p.2 else 0)
        ∈ station_stddevs data := List.mem_map.mpr ⟨p, hp, rfl⟩
    have h1 : 1 < p.2.length := by omega
    rw [if_pos h1] at hmem
    rw [alookup_eq_some_of_mem _ _ _ hnd hmem, stdev_eq_spec]
  · intro hlen
    have hmem : (p.1, if 1 < p.2.length then stdev p.2 else 0)
        ∈ station_stddevs data := List.mem_map.mpr ⟨p, hp, rfl⟩
    have h1 : ¬ 1 < p.2.length := by omega
    rw [if_neg h1] at hmem
    refine ⟨alookup_eq_some_of_mem _ _ _ hnd hmem, ?_,
      List.mem_map.mpr ⟨_, hmem, rfl⟩⟩
    unfold insufficient_data_log
    exact List.mem_map.mpr ⟨p, List.mem_filter.mpr ⟨hp, by simp [h1]⟩, rfl⟩

/-- C9 witness: a three-observation station gets the sample stddev, and a
one-observation station gets 0.0 and is logged. -/
theorem C9_station_stddev_witness :
    (((some "A", ([1, 2, 3] : List ℚ)) ∈ station_temps exData2
        ∧ 2 ≤ ([1, 2, 3] : List ℚ).length)
      ∧ alookup (station_stddevs exData2) (some "A") =
          some (sampleStddevSpec [1, 2, 3]))
    ∧ (((some "B", ([5] : List ℚ)) ∈ station_temps exData3
        ∧ ([5] : List ℚ).length = 1)
      ∧ alookup (station_stddevs exData3) (some "B") = some 0
      ∧ (some "B") ∈ insufficient_data_log exData3) := by
  have hA : ((some "A" : Option String), ([1, 2, 3] : List ℚ))
      ∈ station_temps exData2 := by decide
  have hB : ((some "B" : Option String), ([5] : List ℚ))
      ∈ station_temps exData3 := by decide
  have h1 := (C9_station_stddev exData2 _ hA).1 (by decide)
  have h2 := (C9_station_stddev exData3 _ hB).2 (by decide)
  exact ⟨⟨⟨hA, by decide⟩, h1⟩, ⟨⟨hB, by decide⟩, h2.1, h2.2.1⟩⟩

/-- C1 counterexample: in the dataset holding a single all-missing record
for station A, station A has an empty pooled list, yet it appears in both
stability lists with the spurious statistic 0.0, so the claimed exclusion
fails. -/
theorem C1_counterexample :
    ¬ (∀ s, (s, ([] : List ℚ)) ∈ station_temps exData1 →
        (∀ res, find_largest_temp_range exData1 = some res →
          s ∉ res.map Prod.fst)
        ∧ (∀ stb var, find_temperature_stability exData1 = some (stb, var) →
          s ∉ stb.map Prod.fst ∧ s ∉ var.map Prod.fst)) := by
  intro h
  have hA := h (some "A") (by decide)
  have h2 := (hA.2 [(some "A", 0)] [(some "A", 0)] find_stab_exData1).1
  simp at h2

/-- C1 (amended): a station with an empty pooled list is excluded from the
largest-range result, but it is not excluded from the stability search: it
enters the stddev table with statistic 0.0 and, whenever the stability
search returns, appears in the most-stable list with that spurious 0.0. -/
theorem C1_empty_station (data : List StationRecord) (s : Option String)
    (h : (s, ([] : List ℚ)) ∈ station_temps data) :
    (∀ res, find_largest_temp_range data = some res → s ∉ res.map Prod.fst)
    ∧ (s, (0 : ℝ)) ∈ station_stddevs data
    ∧ (∀ stb var, find_temperature_stability data = some (stb, var) →
        (s, (0 : ℝ)) ∈ stb) := by
  have hnd := station_temps_keys_nodup data
  have hmem0 : (s, (0 : ℝ)) ∈ station_stddevs data := by
    have h1 : (s, if 1 < ([] : List ℚ).length then stdev [] else 0)
        ∈ station_stddevs data := List.mem_map.mpr ⟨(s, []), h, rfl⟩
    simpa using h1
  have hkey : ∀ info : RangeInfo, (s, info) ∈ station_ranges data → False := by
    intro info hm
    obtain ⟨p, hp, he⟩ := List.mem_filterMap.mp hm
    cases hp2 : p.2 with
    | nil =>
      rw [hp2] at he
      exact Option.noConfusion he
    | cons t ts =>
      rw [hp2] at he
      injection he with he'
      have hps : p.1 = s := congrArg Prod.fst he'
      have hpmem : (s, t :: ts) ∈ station_temps data := by
        have : p = (s, t :: ts) := Prod.ext hps hp2
        rw [← this]
        exact hp
      have h2 : ([] : List ℚ) = t :: ts :=
        nodup_pairs_eq (station_temps data) s _ _ hnd h hpmem
      exact List.noConfusion h2
  refine ⟨?_, hmem0, ?_⟩
  · intro res hres hmm
    obtain ⟨x, hx, hxs⟩ := List.mem_map.mp hmm
    obtain ⟨q, rest, hsr⟩ : ∃ a b, station_ranges data = a :: b := by
      cases hh : station_ranges data with
      | nil =>
        unfold find_largest_temp_range at hres
        rw [hh] at hres
        exact Option.noConfusion hres
      | cons a b => exact ⟨a, b, rfl⟩
    rw [find_range_eq data q rest hsr] at hres
    injection hres with hres'
    subst hres'
    have hx' : x ∈ station_ranges data := by
      rw [hsr]
      exact (List.mem_filter.mp hx).1
    obtain ⟨x1, x2⟩ := x
    dsimp only at hxs
    subst hxs
    exact hkey x2 hx'
  · intro stb var hsv
    obtain ⟨q, rest, hsd⟩ : ∃ a b, station_stddevs data = a :: b := by
      cases hh : station_stddevs data with
      | nil =>
        rw [hh] at hmem0
        exact absurd hmem0 (List.not_mem_nil _)
      | cons a b => exact ⟨a, b, rfl⟩
    rw [find_stab_eq data q rest hsd] at hsv
    injection hsv with hsv'
    have hstb : stb = (q :: rest).filter
        (fun x => decide (|x.2 - min_stddev (q :: rest)| < 1 / 10000)) :=
      (congrArg Prod.fst hsv').symm
    have hmn : min_stddev (q :: rest) = 0 := by
      apply min_stddev_zero q rest s
      · rw [← hsd]
        exact hmem0
      · intro x hx
        exact stddevs_nonneg data x (by rw [hsd]; exact hx)
    rw [hstb]
    apply List.mem_filter.mpr
    refine ⟨by rw [← hsd]; exact hmem0, decide_eq_true ?_⟩
    rw [hmn]
    norm_num

/-- C1 witness: with an all-missing station A next to a one-observation
station B, station A has an empty pooled list and indeed enters the stddev
table with 0.0. -/
theorem C1_empty_station_witness :
    ((some "A", ([] : List ℚ)) ∈ station_temps exData3)
    ∧ (some "A", (0 : ℝ)) ∈ station_stddevs exData3 := by
  have hm : ((some "A" : Option String), ([] : List ℚ))
      ∈ station_temps exData3 := by decide
  exact ⟨hm, (C1_empty_station exData3 (some "A") hm).2.1⟩

/-- C2 counterexample: at the single-station dataset the report lines read
`Most Stable: A: Smallest Standard Deviation 0.0°C` and
`Most Variable: A: Largest Standard Deviation 0.0°C`, not the claimed
`StdDev` format. -/
theorem C2_counterexample :
    stability_report exData1 ≠
      some ["Most Stable: A: StdDev 0.0°C",
            "Most Variable: A: StdDev 0.0°C"] := by
  have h : stability_report exData1 =
      some ["Most Stable: A: Smallest Standard Deviation 0.0°C",
            "Most Variable: A: Largest Standard Deviation 0.0°C"] := by
    unfold stability_report
    rw [find_stab_exData1]
    simp only [Option.map_some', List.map_cons, List.map_nil, showKey,
      fmt1R_zero]
    decide
  rw [h]
  decide

/-- C2 (amended): the stability report is one line per most-stable station
in the format `Most Stable: <name>: Smallest Standard Deviation <s>°C`,
followed by one line per most-variable station in the format
`Most Variable: <name>: Largest Standard Deviation <s>°C`, the stddev
formatted to one decimal place. -/
theorem C2_stability_report (data : List StationRecord)
    (stb var : List (Option String × ℝ))
    (h : find_temperature_stability data = some (stb, var)) :
    stability_report data =
      some (stb.map (fun p =>
          "Most Stable: " ++ showKey p.1
            ++ ": Smallest Standard Deviation " ++ fmt1R p.2 ++ "°C")
        ++ var.map (fun p =>
          "Most Variable: " ++ showKey p.1
            ++ ": Largest Standard Deviation " ++ fmt1R p.2 ++ "°C")) := by
  unfold stability_report
  rw [h]
  rfl

/-- C2 witness: the report lines at the single-station dataset. -/
theorem C2_stability_report_witness :
    (find_temperature_stability exData1 =
        some ([(some "A", 0)], [(some "A", 0)]))
    ∧ stability_report exData1 =
        some (([((some "A" : Option String), (0 : ℝ))]).map (fun p =>
            "Most Stable: " ++ showKey p.1
              ++ ": Smallest Standard Deviation " ++ fmt1R p.2 ++ "°C")
          ++ ([((some "A" : Option String), (0 : ℝ))]).map (fun p =>
            "Most Variable: " ++ showKey p.1
              ++ ": Largest Standard Deviation " ++ fmt1R p.2 ++ "°C")) :=
  ⟨find_stab_exData1, C2_stability_report exData1 _ _ find_stab_exData1⟩

/-- C3 counterexample: at the dataset with one all-missing record zero
stations have pooled data, and the range search does fail, but the
stability search returns a result instead of failing. -/
theorem C3_counterexample :
    ¬ ((find_largest_temp_range exData1 = none ↔
          ∀ p ∈ station_temps exData1, p.2 = [])
        ∧ (find_temperature_stability exData1 = none ↔
          ∀ p ∈ station_temps exData1, p.2 = [])) := by
  rintro ⟨-, h2⟩
  have h3 : find_temperature_stability exData1 = none := h2.mpr (by decide)
  rw [find_stab_exData1] at h3
  exact Option.noConfusion h3

/-- C3 (amended): the range search fails exactly when zero stations have
any pooled data; the stability search fails exactly when the dataset has no
records at all — with at least one record it returns even when no station
has pooled data. -/
theorem C3_no_station_data (data : List StationRecord) :
    (find_largest_temp_range data = none ↔
      ∀ p ∈ station_temps data, p.2 = [])
    ∧ (find_temperature_stability data = none ↔ data = []) := by
  constructor
  · constructor
    · intro h p hp
      by_contra hne
      obtain ⟨t, ts, ht⟩ : ∃ t ts, p.2 = t :: ts := by
        cases hh : p.2 with
        | nil => exact absurd hh hne
        | cons a b => exact ⟨a, b, rfl⟩
      have hmem : (p.1,
          (⟨lmax t ts - lmin t ts, lmax t ts, lmin t ts⟩ : RangeInfo))
          ∈ station_ranges data := by
        unfold station_ranges
        exact List.mem_filterMap.mpr ⟨p, hp, by rw [ht]⟩
      obtain ⟨q, rest, hsr⟩ : ∃ a b, station_ranges data = a :: b := by
        cases hh : station_ranges data with
        | nil =>
          rw [hh] at hmem
          exact absurd hmem (List.not_mem_nil _)
        | cons a b => exact ⟨a, b, rfl⟩
      rw [find_range_eq data q rest hsr] at h
      exact Option.noConfusion h
    · intro h
      have hsr : station_ranges data = [] := by
        unfold station_ranges
        rw [List.filterMap_eq_nil_iff]
        intro p hp
        rw [h p hp]
      unfold find_largest_temp_range
      rw [hsr]
  · constructor
    · intro h
      by_contra hne
      obtain ⟨q, rest, hsd⟩ := station_stddevs_cons data hne
      rw [find_stab_eq data q rest hsd] at h
      exact Option.noConfusion h
    · intro h
      subst h
      rfl

/-- C3 witness: the characterization instantiated at both fixtures — the
all-missing dataset has a failing range search and a returning stability
search. -/
theorem C3_no_station_data_witness :
    find_largest_temp_range exData1 = none
    ∧ ¬ find_temperature_stability exData1 = none := by
  have h := C3_no_station_data exData1
  refine ⟨h.1.mpr (by decide), ?_⟩
  intro hn
  exact List.cons_ne_nil _ _ (h.2.mp hn)

/-- C10 witness: January belongs to exactly one season, and the count
identity holds at a concrete dataset. -/
theorem C10_partition_witness :
    ("January" ∈ ALL_MONTHS)
    ∧ (SEASONS.filter (fun sp => decide ("January" ∈ sp.2))).length = 1
    ∧ ((season_data exData2).map (fun p => p.2.length)).sum =
        (exData2.map
          (fun row => (ALL_MONTHS.filterMap row.month).length)).sum :=
  ⟨by decide, C10_partition.2.2.1 "January" (by decide),
    C10_partition.2.2.2 exData2⟩
